import Mathlib

/-!
Shallow embedding of the receipt-processing and fashion-recommendation
pipelines of the kasifesyen repository, together with proofs settling the
frozen claims C1-C10.

Sources embedded here:
* `ReceiptProcessor` (processReceipt, saveReceipt, deleteImage,
  validateAndFormatData, normalizeOriginalCurrency) from the receipt
  processor module;
* the `POST` handler of `src/app/api/fashion/route.ts` (image branch:
  response sanitizer, structural validation, per-outfit image loop).

JavaScript numbers are modelled as rationals with an explicit NaN value;
JSON field values as a small dynamic-value type; external effects (auth,
storage upload/removal, model calls, the currency-rate source, JSON.parse)
as explicit oracle parameters threaded through a trace.
-/

set_option maxHeartbeats 1000000

/-! ## JavaScript-style primitive helpers -/

/-- Whitespace characters recognised by the JS `\s` class / `trim`
(restricted to the ASCII range actually exercised here). -/
def jsWsChar (c : Char) : Bool :=
  c = ' ' || c = '\t' || c = '\n' || c = '\r' || c = '\x0b' || c = '\x0c'

/-- `List`-level prefix test. -/
def listStartsWith : List Char → List Char → Bool
  | _, [] => true
  | [], _ :: _ => false
  | a :: as, b :: bs => a = b && listStartsWith as bs

/-- `String.prototype.includes` on character lists: does `cs` contain
`pat` as a contiguous sublist? -/
def hasSublist : List Char → List Char → Bool
  | [], pat => listStartsWith [] pat
  | c :: rest, pat => listStartsWith (c :: rest) pat || hasSublist rest pat

/-- `haystack.includes(needle)` for strings. -/
def strIncludes (haystack needle : String) : Bool :=
  hasSublist haystack.toList needle.toList

/-- Characters of a string with surrounding JS whitespace removed
(`String.prototype.trim`). -/
def jsTrimChars (cs : List Char) : List Char :=
  ((cs.dropWhile jsWsChar).reverse.dropWhile jsWsChar).reverse

/-- `s.trim()`. -/
def jsTrim (s : String) : String :=
  ⟨jsTrimChars s.toList⟩

/-- `String.prototype.toUpperCase`, restricted to ASCII letters (the
currency strings exercised by the source contain only ASCII letters and
case-less symbols, on which the JS function acts identically). -/
def jsToUpper (s : String) : String :=
  ⟨s.toList.map Char.toUpper⟩

/-! ## The currency normalizer (`normalizeOriginalCurrency`) -/

/-- The fixed ISO-code allow-list from `normalizeOriginalCurrency`. -/
def isoCodes : List String :=
  ["MYR", "USD", "GBP", "EUR", "JPY", "CNY", "SGD", "AUD", "CAD",
   "NZD", "CHF", "HKD", "TWD", "KRW", "INR", "THB", "VND", "IDR",
   "PHP", "MMK", "BND"]

/-- The fixed symbol-to-candidate-codes table (`symbolMap`), in the
source's insertion order, which is the iteration order of
`Object.entries`. -/
def symbolMap : List (String × List String) :=
  [("$", ["USD", "CAD", "AUD", "SGD", "HKD"]),
   ("£", ["GBP"]),
   ("€", ["EUR"]),
   ("¥", ["JPY", "CNY"]),
   ("₹", ["INR"]),
   ("฿", ["THB"]),
   ("RM", ["MYR"]),
   ("S$", ["SGD"]),
   ("A$", ["AUD"]),
   ("C$", ["CAD"]),
   ("NT$", ["TWD"]),
   ("HK$", ["HKD"]),
   ("₩", ["KRW"]),
   ("₫", ["VND"]),
   ("Rp", ["IDR"]),
   ("₱", ["PHP"]),
   ("K", ["MMK"]),
   ("B$", ["BND"])]

/-- The disambiguation hint bundle (`CurrencyContext`). -/
structure CurrencyContext where
  location : Option String := none
  language : Option String := none
  deriving DecidableEq

/-- `normalizeOriginalCurrency(currency, context)`.  The `context`
argument is only ever used for logging in the source, so it does not
appear on the right-hand side.  A `null` or empty-string input is falsy
(`!currency`) and yields `null`. -/
def normalizeOriginalCurrency (currency : Option String)
    (_context : CurrencyContext) : Option String :=
  match currency with
  | none => none
  | some cur =>
    if cur = "" then none
    else
      let cleanCurrency := jsToUpper (jsTrim cur)
      if isoCodes.contains cleanCurrency then some cleanCurrency
      else
        match symbolMap.find? (fun p => strIncludes cleanCurrency p.1) with
        | some p => p.2.head?
        | none =>
          if cleanCurrency.length = 3 then some cleanCurrency else none

example : normalizeOriginalCurrency (some "$") {} = some "USD" := by decide
example : normalizeOriginalCurrency (some "rm") {} = some "MYR" := by decide
example : normalizeOriginalCurrency (some "Rp") {} = none := by decide
example : normalizeOriginalCurrency (some "usd") {} = some "USD" := by decide
example : normalizeOriginalCurrency (some "¥") {} = some "JPY" := by decide
example : normalizeOriginalCurrency (some "zzz") {} = some "ZZZ" := by decide
example : normalizeOriginalCurrency (some "zz") {} = none := by decide

/-! ## Dynamic JSON field values and JS numeric coercion -/

/-- A JSON-ish runtime value as it appears in a field of the parsed model
output.  `jnan` represents the JS number `NaN`, which can arise once
`Number(...)` has been applied to an unparseable value. -/
inductive JVal where
  | jnull
  | jnum (q : ℚ)
  | jstr (s : String)
  | jnan
  deriving DecidableEq

/-- Decimal parsing fragment of `Number(string)`: optional sign, decimal
digits with an optional fractional part.  Inputs outside this fragment
(exponents, hex, `Infinity`) are not exercised by the claims and map to
`none` (NaN). -/
def parseDecimal (cs : List Char) : Option ℚ :=
  let (sign, cs) :=
    match cs with
    | '-' :: rest => ((-1 : ℚ), rest)
    | '+' :: rest => ((1 : ℚ), rest)
    | _ => ((1 : ℚ), cs)
  let intPart := cs.takeWhile Char.isDigit
  let rest := cs.drop intPart.length
  let digitsVal : List Char → ℕ :=
    fun ds => ds.foldl (fun acc c => acc * 10 + (c.toNat - 48)) 0
  match rest with
  | [] =>
    if intPart.isEmpty then none
    else some (sign * (digitsVal intPart : ℚ))
  | '.' :: frac =>
    if frac.all Char.isDigit && !(intPart.isEmpty && frac.isEmpty) then
      some (sign * ((digitsVal intPart : ℚ) +
        (digitsVal frac : ℚ) / (10 : ℚ) ^ frac.length))
    else none
  | _ => none

/-- `Number(v)` on an optional field value.  `none` on the result side is
the JS `NaN`; an absent field (`undefined`) coerces to NaN, `null` to 0,
and the empty / all-whitespace string to 0. -/
def toNumber : Option JVal → Option ℚ
  | none => none
  | some .jnull => some 0
  | some .jnan => none
  | some (.jnum q) => some q
  | some (.jstr s) =>
    let t := jsTrimChars s.toList
    if t.isEmpty then some 0 else parseDecimal t

/-- `Number(v) || 0`: NaN collapses to 0 (and 0 stays 0). -/
def numOr0 (v : Option JVal) : ℚ :=
  (toNumber v).getD 0

/-- Store a JS number (possibly NaN) back into a field value. -/
def jnumOf : Option ℚ → JVal
  | none => .jnan
  | some q => .jnum q

/-- JS truthiness of an optional field value (`undefined`, `null`, `0`,
`NaN` and `""` are falsy). -/
def jsTruthy : Option JVal → Bool
  | none => false
  | some .jnull => false
  | some .jnan => false
  | some (.jnum q) => q != 0
  | some (.jstr s) => s != ""

/-- `v || d` for an optional string field with string default. -/
def jsOrStr (v : Option String) (d : String) : String :=
  match v with
  | some s => if s = "" then d else s
  | none => d

/-- `v || null` for an optional string field (empty collapses to null). -/
def jsStrOrNull (v : Option String) : Option String :=
  match v with
  | some s => if s = "" then none else some s
  | none => none

example : toNumber (some (.jstr "abc")) = none := by decide
example : toNumber (some (.jstr "-5")) = some (-5) := by
  show some ((-1 : ℚ) * ((5 : ℕ) : ℚ)) = some (-5)
  norm_num
example : toNumber (some (.jstr "12.5")) = some (25 / 2) := by
  show some ((1 : ℚ) * (((12 : ℕ) : ℚ) + ((5 : ℕ) : ℚ) / (10 : ℚ) ^ 1)) =
    some (25 / 2)
  norm_num
example : toNumber (some (.jstr "  ")) = some 0 := by decide
example : numOr0 (some (.jstr "abc")) = 0 := by decide

/-! ## The fashion route response sanitizer (image branch)

The chain of `String.prototype.replace` calls at the top of the image
branch of `POST` in `src/app/api/fashion/route.ts`, stage by stage. -/

/-- The three-backtick code-fence marker. -/
def tripleTick : List Char := "```".toList

/-- Case-insensitive ASCII prefix test (for the `i` regex flag). -/
def startsWithCI (cs : List Char) (pat : String) : Bool :=
  listStartsWith (cs.map Char.toLower) (pat.toList.map Char.toLower)

/-- Matcher for the group `(```*\s*json|json)` followed by `\s*\n*` of
stage 1, applied at the position after the leading `\s*`.  Returns the
remainder after the whole match, or `none` when the pattern does not
match there. -/
def fenceTagMatch (cs : List Char) : Option (List Char) :=
  if listStartsWith cs ("``".toList) then
    let ticks := cs.takeWhile (fun c => c = '`')
    let r := (cs.drop ticks.length).dropWhile jsWsChar
    if startsWithCI r "json" then some ((r.drop 4).dropWhile jsWsChar)
    else none
  else if startsWithCI cs "json" then some ((cs.drop 4).dropWhile jsWsChar)
  else none

/-- Stage 1: `.replace(/^\s*(```*\s*json|json)\s*\n*\/gi, '')` — anchored
at the start, so at most one replacement. -/
def stripFenceTagPrefix (cs : List Char) : List Char :=
  match fenceTagMatch (cs.dropWhile jsWsChar) with
  | some rest => rest
  | none => cs

/-- Stage 2: `.replace(/```/g, '')` — removes every non-overlapping
occurrence of three backticks, scanning left to right. -/
def removeTripleTicks : List Char → List Char
  | [] => []
  | [c] => [c]
  | [c1, c2] => [c1, c2]
  | c1 :: c2 :: c3 :: rest =>
    if listStartsWith (c1 :: c2 :: c3 :: rest) tripleTick then
      removeTripleTicks rest
    else c1 :: removeTripleTicks (c2 :: c3 :: rest)

/-- Stage 3: `.replace(/^[^{]*\/, '')` — drop everything before the first
opening brace (the whole string when there is none). -/
def dropBeforeBrace (cs : List Char) : List Char :=
  cs.dropWhile (fun c => c != '{')

/-- Stage 4: `.replace(/}[^}]*$/, '}')` — truncate after the last closing
brace; no replacement when the string has no closing brace. -/
def keepThroughLastBrace (cs : List Char) : List Char :=
  if cs.contains '}' then (cs.reverse.dropWhile (fun c => c != '}')).reverse
  else cs

/-- Stage 8: `.replace(/^json\s*\n/gi, '')` — strip a leading `json`
language tag when its trailing whitespace run contains a newline; the
greedy `\s*` backtracks to the last newline of that run. -/
def stripJsonNewline (cs : List Char) : List Char :=
  if startsWithCI cs "json" then
    let rest := cs.drop 4
    let run := rest.takeWhile jsWsChar
    if run.contains '\n' then
      rest.drop ((run.reverse.dropWhile (fun c => c != '\n')).reverse).length
    else cs
  else cs

/-- Stage 9: `.replace(/^\s*{\s*\/, '{')`. -/
def collapseBraceWs (cs : List Char) : List Char :=
  match (cs.dropWhile jsWsChar) with
  | '{' :: rest => '{' :: rest.dropWhile jsWsChar
  | _ => cs

/-- The full sanitizer chain of the image branch (stages 5-7 are `trim`
and the two anchored whitespace strips, which all reduce to trimming). -/
def sanitizeChars (cs : List Char) : List Char :=
  collapseBraceWs (stripJsonNewline (jsTrimChars (jsTrimChars (jsTrimChars
    (keepThroughLastBrace (dropBeforeBrace (removeTripleTicks
      (stripFenceTagPrefix cs))))))))

/-- `sanitizedText` as computed from the raw model text. -/
def sanitizeText (s : String) : String :=
  ⟨sanitizeChars s.toList⟩

example :
    sanitizeText "```json\n\x7b\"a\":1\x7d\n```" = "\x7b\"a\":1\x7d" := by
  rfl
example : sanitizeText "\x7b\"a\":1\x7d" = "\x7b\"a\":1\x7d" := by rfl
example : sanitizeText "hello \x7b\"a\":1\x7d bye" = "\x7b\"a\":1\x7d" := by
  rfl
example : sanitizeText "no braces at all" = "" := by rfl
example : sanitizeText "\x7b\"a\":\"```\"\x7d" = "\x7b\"a\":\"\"\x7d" := by
  rfl

/-! ## Parsed model output (receipt pipeline)

The shapes the receipt processor reads off the parsed Gemini response.
Field values that the source feeds through `Number(...)` or truthiness
tests are kept dynamic (`Option JVal`, `none` = absent). -/

/-- An entry of the parsed `items` array. -/
structure PItem where
  name : String
  price : Option JVal
  quantity : Option JVal
  deriving DecidableEq

/-- The parsed `tax` object. -/
structure PTax where
  rate : Option JVal
  amount : Option JVal
  deriving DecidableEq

/-- An entry of the parsed `discounts` array. -/
structure PDiscount where
  description : String
  amount : Option JVal
  deriving DecidableEq

/-- The receipt-shaped payload (`parsedData.data`) read by
`processReceipt`. -/
structure ParsedGemini where
  storeName : Option String
  date : Option String
  items : Option (List PItem)
  subtotal : Option JVal
  tax : Option PTax
  discounts : Option (List PDiscount)
  total : Option JVal
  category : Option String
  currencyConverted : Bool
  originalCurrency : Option String
  storeLocation : Option String
  receiptLanguage : Option String
  deriving DecidableEq

/-- The whole parsed model response.  The source reads
`parsedData.isReceipt ? parsedData.data : parsedData`; both readings are
represented by the single `data` field here (the claims only exercise
responses that carry the receipt payload in the selected position). -/
structure ParsedModel where
  isReceipt : Option Bool
  reason : Option String
  data : ParsedGemini
  deriving DecidableEq

/-! ## The response matcher of `processReceipt`

`text.match(/```json\s*({[\s\S]*?})\s*```/) || text.match(/{[\s\S]*?}/)`,
followed by `JSON.parse(jsonMatch[1] || text)`. -/

/-- After the lazily matched `}`: `\s*` and then the closing fence. -/
def fenceFollows (cs : List Char) : Bool :=
  listStartsWith (cs.dropWhile jsWsChar) tripleTick

/-- The lazy `[\s\S]*?}` scan: consume as little as possible until a `}`
followed by `\s*`+fence; returns the consumed characters including that
brace. -/
def scanLazyClose : List Char → Option (List Char)
  | [] => none
  | c :: rest =>
    if c = '}' && fenceFollows rest then some ['}']
    else (scanLazyClose rest).map (fun tail => c :: tail)

/-- Capture group 1 at a position right after a `` ```json `` marker:
`\s*`, then `{`, then the lazy scan. -/
def fencedGroupAt (cs : List Char) : Option (List Char) :=
  match cs.dropWhile jsWsChar with
  | '{' :: rest => (scanLazyClose rest).map (fun tail => '{' :: tail)
  | _ => none

/-- Leftmost match of the fenced-JSON regex over the whole text. -/
def findFencedGroup : List Char → Option (List Char)
  | [] => none
  | c :: rest =>
    if listStartsWith (c :: rest) ("```json".toList) then
      match fencedGroupAt (rest.drop 6) with
      | some g => some g
      | none => findFencedGroup rest
    else findFencedGroup rest

/-- The fallback `/{[\s\S]*?}/` only feeds an existence test (it has no
capture group, so `jsonMatch[1]` is undefined and the whole raw text is
parsed): some `{` followed later by some `}`. -/
def hasBracePair (cs : List Char) : Bool :=
  match cs.dropWhile (fun c => c != '{') with
  | _ :: rest => rest.contains '}'
  | [] => false

/-- Outcome of the two-regex match. -/
inductive JsonMatch where
  | fenced (group : String)
  | bare
  | nomatch
  deriving DecidableEq

/-- The combined `text.match(...) || text.match(...)`. -/
def jsonMatchOf (text : String) : JsonMatch :=
  match findFencedGroup text.toList with
  | some g => .fenced ⟨g⟩
  | none => if hasBracePair text.toList then .bare else .nomatch

/-- The string handed to `JSON.parse` (`jsonMatch[1] || text`), or `none`
when no regex matched (the `Invalid response format` error). -/
def parsePayload (text : String) : Option String :=
  match jsonMatchOf text with
  | .fenced g => some (if g = "" then text else g)
  | .bare => some text
  | .nomatch => none

example :
    jsonMatchOf "```json\n\x7bx\x7d\n```" = .fenced "\x7bx\x7d" := by rfl
example : jsonMatchOf "\x7bx\x7d" = .bare := by rfl
example : jsonMatchOf "nothing here" = .nomatch := by rfl
example : parsePayload "pre \x7bx\x7d post" = some "pre \x7bx\x7d post" := by
  rfl

/-! ## Errors, trace and environment of the receipt pipeline -/

/-- The distinct failure conditions thrown along the receipt pipeline. -/
inductive PRErr where
  | notAuthenticated
  | invalidResponseFormat
  | parseFailed
  | notAReceipt (reason : String)
  | itemsNotIterable
  | conversionFailed (code : String)
  | missingRequiredFields
  | invalidDateFormat
  deriving DecidableEq

/-- Observable effects on external services: temporary uploads, deletion
attempts (compensation calls that passed the guards of `deleteImage`),
deletions that the storage service accepted, and model invocations. -/
structure PRTrace where
  uploads : List String
  deleteAttempts : List String
  deletions : List String
  geminiCalls : ℕ
  deriving DecidableEq

/-- The empty trace. -/
def PRTrace.empty : PRTrace := ⟨[], [], [], 0⟩

/-- Oracles for every external dependency of one `processReceipt` run:
the authenticated user, the URL a temporary upload would get, the model's
raw text, `JSON.parse`, the currency-rate source (spec-modelled), the tax
classifier's degraded-to-null result, clock and id generation, and
whether the storage service accepts a deletion. -/
structure PREnv where
  authUser : Option String
  uploadedUrl : String
  modelText : String
  jsonParse : String → Option ParsedModel
  rates : String → Option ℚ
  taxCategory : Option String
  timestamp : String
  newId : String
  deleteOk : Bool

/-! ## `deleteImage` -/

/-- `split(sep)` on character lists, preserving empty segments (JS
`String.prototype.split` with a single-character separator). -/
def splitOnCharAux : List Char → Char → List Char → List (List Char)
  | [], _, acc => [acc.reverse]
  | x :: rest, c, acc =>
    if x = c then acc.reverse :: splitOnCharAux rest c []
    else splitOnCharAux rest c (x :: acc)

/-- `url.pathname.split('/')`, approximated on the full URL string; the
bucket segment search is unaffected for well-formed storage URLs. -/
def splitOnSlash (s : String) : List String :=
  (splitOnCharAux s.toList '/' []).map (fun l => (⟨l⟩ : String))

/-- `deleteImage(imageUrl)`: best-effort compensation.  Empty or
non-storage URLs are skipped; errors from the storage service are
swallowed (the source catches everything and never rethrows), so this
always returns a trace and never a failure. -/
def deleteImage (env : PREnv) (imageUrl : String) (tr : PRTrace) : PRTrace :=
  if jsTrim imageUrl = "" then tr
  else if !(strIncludes imageUrl "storage/v1") then tr
  else
    match (splitOnSlash imageUrl).findIdx?
        (fun part => part = "receipt-images" || part = "receipts") with
    | none => tr
    | some _ =>
      let tr2 := { tr with deleteAttempts := tr.deleteAttempts ++ [imageUrl] }
      if env.deleteOk then { tr2 with deletions := tr2.deletions ++ [imageUrl] }
      else tr2

/-- A URL on which `deleteImage` passes all guards and reaches the
storage removal call. -/
def isStorageObjectUrl (url : String) : Bool :=
  jsTrim url != "" && strIncludes url "storage/v1" &&
    ((splitOnSlash url).findIdx?
      (fun part => part = "receipt-images" || part = "receipts")).isSome

/-! ## Currency conversion pass -/

/-- Modelled from the spec: the `currency-converter` module imported by
the receipt processor is not part of the source tree; spec section 4.4
specifies conversion as amount times the looked-up rate, rounded to two
decimal places (currency-standard rounding). -/
def round2 (q : ℚ) : ℚ := (round (q * 100) : ℤ) / 100

/-- Modelled from the spec: `currencyConverter.convert(amount, code)`
with the external rate source abstracted as an oracle; a missing rate is
the `ConversionUnavailable` failure, surfaced by `processReceipt` as its
`Failed to convert currency` error. A NaN amount converts to NaN. -/
def convert (rates : String → Option ℚ) (amount : Option ℚ) (code : String) :
    Except PRErr (Option ℚ) :=
  match rates code with
  | none => .error (.conversionFailed code)
  | some r => .ok (amount.map (fun x => round2 (x * r)))

/-- The currency-normalization step of `processReceipt`: when the
converted flag is set, rewrite the origin code through
`normalizeOriginalCurrency`, or clear the flag when no code could be
determined. -/
def normalizeStep (rd : ParsedGemini) : ParsedGemini :=
  if rd.currencyConverted then
    match normalizeOriginalCurrency rd.originalCurrency
        { location := rd.storeLocation, language := rd.receiptLanguage } with
    | some c => { rd with originalCurrency := some c }
    | none => { rd with currencyConverted := false }
  else rd

/-- The conversion pass of `processReceipt` (guarded by
`receiptData.currencyConverted && receiptData.originalCurrency`), in the
source's order: every item price, the subtotal when truthy, the tax
amount when truthy, the total unconditionally, then every discount
amount.  Iterating an absent `items` array is the JS `TypeError`. -/
def convertPass (rates : String → Option ℚ) (rd : ParsedGemini) :
    Except PRErr ParsedGemini :=
  match rd.originalCurrency with
  | none => .ok rd
  | some c =>
    if rd.currencyConverted && c != "" then
      match rd.items with
      | none => .error .itemsNotIterable
      | some items => do
        let items2 ← items.mapM (fun item => do
          let p ← convert rates (toNumber item.price) c
          pure { item with price := some (jnumOf p) })
        let subtotal2 ←
          if jsTruthy rd.subtotal then do
            let v ← convert rates (toNumber rd.subtotal) c
            pure (some (jnumOf v))
          else pure rd.subtotal
        let tax2 ←
          match rd.tax with
          | some t =>
            if jsTruthy t.amount then do
              let v ← convert rates (toNumber t.amount) c
              pure (some { t with amount := some (jnumOf v) })
            else pure (some t)
          | none => pure (none : Option PTax)
        let total2 ← convert rates (toNumber rd.total) c
        let discounts2 ←
          match rd.discounts with
          | some ds => do
            let ds2 ← ds.mapM (fun d => do
              let a ← convert rates (toNumber d.amount) c
              pure { d with amount := some (jnumOf a) })
            pure (some ds2)
          | none => pure (none : Option (List PDiscount))
        pure { rd with
          items := some items2
          subtotal := subtotal2
          tax := tax2
          total := some (jnumOf total2)
          discounts := discounts2 }
    else .ok rd

/-! ## Record construction and persistence -/

/-- A line item of the persisted record: price is `Number(item.price)`
(no fallback, so possibly NaN); quantity is spread in only when the raw
quantity is truthy. -/
structure RItem where
  name : String
  price : Option ℚ
  quantity : Option (Option ℚ)
  deriving DecidableEq

/-- The persisted `ReceiptData` row. -/
structure ReceiptData where
  id : String
  user_id : String
  store_name : String
  date : String
  items : List RItem
  subtotal : ℚ
  tax : Option (ℚ × ℚ)
  discounts : Option (List (String × Option ℚ))
  total : ℚ
  image_url : String
  created_at : String
  updated_at : String
  category : String
  tax_category : Option String
  metadata_currency_converted : Bool
  metadata_original_currency : Option String
  deriving DecidableEq

/-- `timestamp.split('T')[0]`. -/
def currentDateOf (timestamp : String) : String :=
  ⟨timestamp.toList.takeWhile (fun c => c != 'T')⟩

/-- Item mapping of the record construction. -/
def coerceItem (item : PItem) : RItem :=
  { name := item.name
    price := toNumber item.price
    quantity :=
      if jsTruthy item.quantity then some (toNumber item.quantity) else none }

/-- The `receiptDataFormatted` literal built at the end of
`processReceipt` (the date is always the processing date; `|| 0`
fallbacks on subtotal, tax fields and total; plain `Number(...)` on item
prices and discount amounts). -/
def buildRecord (env : PREnv) (uid finalImageUrl : String)
    (rd : ParsedGemini) : ReceiptData :=
  { id := env.newId
    user_id := uid
    store_name := jsOrStr rd.storeName "Unknown Store"
    date := currentDateOf env.timestamp
    items := (rd.items.getD []).map coerceItem
    subtotal := numOr0 rd.subtotal
    tax := rd.tax.map (fun t => (numOr0 t.rate, numOr0 t.amount))
    discounts := rd.discounts.map
      (fun ds => ds.map (fun d => (d.description, toNumber d.amount)))
    total := numOr0 rd.total
    image_url := finalImageUrl
    created_at := env.timestamp
    updated_at := env.timestamp
    category := jsOrStr rd.category "Miscellaneous"
    tax_category := env.taxCategory
    metadata_currency_converted := rd.currencyConverted
    metadata_original_currency := jsStrOrNull rd.originalCurrency }

/-- `s.startsWith(pre)` as a kernel-reducible character-list test. -/
def strStartsWith (s pre : String) : Bool :=
  listStartsWith s.toList pre.toList

/-- The `finalImageUrl` of one `processReceipt` run: the caller's URL
when one was supplied; otherwise the result of `uploadImage`, which
passes a string through when it is already an `https://` URL and
otherwise uploads and returns the storage URL. -/
def finalUrlOf (env : PREnv) (imageData imageUrl : String) : String :=
  if imageUrl = "" then
    if strStartsWith imageData "https://" then imageData else env.uploadedUrl
  else imageUrl

/-- The upload effect of the same decision. -/
def uploadTraceOf (env : PREnv) (imageData imageUrl : String) : PRTrace :=
  if imageUrl = "" then
    if strStartsWith imageData "https://" then PRTrace.empty
    else { PRTrace.empty with uploads := [env.uploadedUrl] }
  else PRTrace.empty

/-- The catch-block of `processReceipt`: on any error, when the caller
supplied no pre-existing image URL, best-effort-delete the (possibly
uploaded) image, then rethrow the original error.  `deleteImage` never
throws, so the original error is always the one propagated. -/
def failCleanup (env : PREnv) (imageUrl finalImageUrl : String) (e : PRErr)
    (tr : PRTrace) : Except PRErr ReceiptData × PRTrace :=
  if imageUrl = "" then (.error e, deleteImage env finalImageUrl tr)
  else (.error e, tr)

/-- `processReceipt(imageData, imageUrl)`: auth check, temporary upload
when no URL was supplied, one model call, response matching and parsing,
the not-a-receipt rejection with inner compensation, currency
normalization and conversion, and record construction. -/
def processReceipt (env : PREnv) (imageData imageUrl : String) :
    Except PRErr ReceiptData × PRTrace :=
  match env.authUser with
  | none => failCleanup env imageUrl imageUrl .notAuthenticated PRTrace.empty
  | some uid =>
    let finalImageUrl := finalUrlOf env imageData imageUrl
    let tr0 := uploadTraceOf env imageData imageUrl
    let tr := { tr0 with geminiCalls := tr0.geminiCalls + 1 }
    match parsePayload env.modelText with
    | none => failCleanup env imageUrl finalImageUrl .invalidResponseFormat tr
    | some payload =>
      match env.jsonParse payload with
      | none => failCleanup env imageUrl finalImageUrl .parseFailed tr
      | some pm =>
        if pm.isReceipt = some false then
          let tr2 := if imageUrl = "" then deleteImage env finalImageUrl tr
            else tr
          failCleanup env imageUrl finalImageUrl
            (.notAReceipt (jsOrStr pm.reason
              "Unable to identify receipt content")) tr2
        else
          let rd := normalizeStep pm.data
          match convertPass env.rates rd with
          | .error e => failCleanup env imageUrl finalImageUrl e tr
          | .ok rd2 => (.ok (buildRecord env uid finalImageUrl rd2), tr)

/-- `saveReceipt(receiptData)`: re-read the authenticated user, overwrite
`user_id` with that user's id, then perform the single insert.  Without a
user it throws before any insert. -/
def saveReceipt (authUser : Option String) (receiptData : ReceiptData)
    (db : List ReceiptData) : Except PRErr (List ReceiptData) :=
  match authUser with
  | none => .error .notAuthenticated
  | some uid => .ok (db ++ [{ receiptData with user_id := uid }])

/-- Modelled from the spec: the orchestrating workflow persists the
record only after the whole processing pass succeeded (spec sections 4.5
and 7: persistence is attempted only after full pipeline success, no
partial record is ever persisted); the receipt UI caller is not part of
the source tree. -/
def runReceiptPipeline (env : PREnv) (imageData imageUrl : String)
    (db : List ReceiptData) : Except PRErr (List ReceiptData) × PRTrace :=
  match processReceipt env imageData imageUrl with
  | (.ok r, tr) => (saveReceipt env.authUser r db, tr)
  | (.error e, tr) => (.error e, tr)

/-! ## `validateAndFormatData`

The private validator (not invoked by `processReceipt`); it reads the
snake-cased `ParsedReceiptData` shape. -/

/-- Input shape of `validateAndFormatData`. -/
structure VData where
  store_name : Option JVal
  items : Option (List PItem)
  subtotal : Option JVal
  tax : Option PTax
  discounts : Option (List PDiscount)
  total : Option JVal
  date : Option JVal
  deriving DecidableEq

/-- `validateAndFormatData(data)`: reject when store name, items, total
or date is falsy; coerce item prices/quantities (quantity defaulting to
1) and the monetary fields with plain `Number(...)`; validate the date
through the platform date parser (an oracle here).  The `Array.isArray`
check is vacuous in this model, where `items` is already a list. -/
def validateAndFormatData (parseDate : Option JVal → Option String)
    (data : VData) : Except PRErr VData :=
  if !(jsTruthy data.store_name) || data.items.isNone ||
      !(jsTruthy data.total) || !(jsTruthy data.date) then
    .error .missingRequiredFields
  else
    let items2 := (data.items.getD []).map (fun item =>
      { name := item.name
        price := some (jnumOf (toNumber item.price))
        quantity := some (if jsTruthy item.quantity then
          jnumOf (toNumber item.quantity) else .jnum 1) : PItem })
    match parseDate data.date with
    | none => .error .invalidDateFormat
    | some iso =>
      .ok { data with
        items := some items2
        subtotal := some (jnumOf (toNumber data.subtotal))
        total := some (jnumOf (toNumber data.total))
        tax := data.tax.map (fun t =>
          { rate := some (jnumOf (toNumber t.rate))
            amount := some (jnumOf (toNumber t.amount)) })
        discounts := data.discounts.map (fun ds => ds.map (fun d =>
          { d with amount := some (jnumOf (toNumber d.amount)) }))
        date := some (.jstr iso) }

/-! ## The fashion route (`POST` of `src/app/api/fashion/route.ts`) -/

/-- The `itemDescription` object of the fashion model response. -/
structure FItemDesc where
  color : String
  pattern : String
  material : String
  style : String
  deriving DecidableEq

/-- One entry of the `outfits` array. -/
structure FOutfit where
  name : String
  pieces : List String
  occasions : List String
  outfitPrompt : Option String
  generatedImage : Option String
  deriving DecidableEq

/-- The parsed fashion JSON response. -/
structure FashionJson where
  itemType : Option String
  itemDescription : Option FItemDesc
  outfits : List FOutfit
  stylingTips : List String
  deriving DecidableEq

/-- Truthiness of an optional string field. -/
def jsTruthyStr : Option String → Bool
  | none => false
  | some s => s != ""

/-- The structural validation
`!jsonResponse?.itemType || !jsonResponse?.outfits?.length ||
!jsonResponse?.stylingTips?.length || !jsonResponse?.itemDescription`
(negated). -/
def validStructure (j : FashionJson) : Bool :=
  jsTruthyStr j.itemType && !j.outfits.isEmpty && !j.stylingTips.isEmpty &&
    j.itemDescription.isSome

/-- The interpolated item description used to synthesize a default
outfit prompt. -/
def detailedItemDescription (j : FashionJson) : String :=
  let d := j.itemDescription.getD ⟨"", "", "", ""⟩
  d.color ++ " " ++ j.itemType.getD "undefined" ++ " with " ++ d.pattern ++
    " pattern, made of " ++ d.material ++ " material, in a " ++ d.style ++
    " style"

/-- The default `outfitPrompt` built when an outfit carries none. -/
def defaultOutfitPrompt (j : FashionJson) (o : FOutfit) : String :=
  "A photorealistic fashion outfit consisting of " ++
    String.intercalate ", " o.pieces ++ " for " ++
    String.intercalate ", " o.occasions ++
    ". The outfit MUST prominently feature the exact " ++
    detailedItemDescription j ++
    " that the user described. Maintain the precise color, pattern" ++
    ", material, and style characteristics of the original item."

/-- `if (!outfit.outfitPrompt) outfit.outfitPrompt = ...`. -/
def ensurePrompt (j : FashionJson) (o : FOutfit) : FOutfit :=
  if jsTruthyStr o.outfitPrompt then o
  else { o with outfitPrompt := some (defaultOutfitPrompt j o) }

/-- The placeholder image reference substituted on a failed or empty
image generation. -/
def placeholderImage : String := "/placeholder-outfit.png"

/-- The body of one iteration of the image-generation loop for outfit
index `i`: a successful generation with inline data becomes a data URL;
an empty generation or a thrown error becomes the placeholder (the
per-outfit try/catch swallows the error). -/
def genStep (gen : ℕ → Except String (Option String)) (j : FashionJson)
    (i : ℕ) (o : FOutfit) : FOutfit :=
  let o2 := ensurePrompt j o
  match gen i with
  | .ok (some d) =>
    { o2 with generatedImage := some ("data:image/png;base64," ++ d) }
  | .ok none => { o2 with generatedImage := some placeholderImage }
  | .error _ => { o2 with generatedImage := some placeholderImage }

/-- The sequential per-outfit image-generation loop, starting at index
`i`. -/
def genLoop (gen : ℕ → Except String (Option String)) (j : FashionJson) :
    ℕ → List FOutfit → List FOutfit
  | _, [] => []
  | i, o :: rest => genStep gen j i o :: genLoop gen j (i + 1) rest

/-- Oracles of one fashion `POST` request: the text model's response, the
platform JSON parser, the image-generation endpoint per outfit index, and
whether the soft time budget has been exceeded. -/
structure FEnv where
  modelText : String
  parseJson : String → Option FashionJson
  genImage : ℕ → Except String (Option String)
  timeShort : Bool

/-- The response returned by the handler: a JSON body (HTTP 200), the
raw-text fallback body (HTTP 200), or an error body with status. -/
inductive FResp where
  | json (body : FashionJson)
  | raw (text : String)
  | err (msg : String) (status : ℕ)
  deriving DecidableEq

/-- HTTP status of a response. -/
def statusOf : FResp → ℕ
  | .json _ => 200
  | .raw _ => 200
  | .err _ s => s

/-! ### The text-branch sanitizer (lines 302-307) -/

/-- `.replace(/^[\s\S]*?(?={)/i, '')`: everything before the first `{`
is removed; without any `{` the lookahead never matches and the string is
unchanged. -/
def dropBeforeBraceIfAny (cs : List Char) : List Char :=
  if cs.contains '{' then cs.dropWhile (fun c => c != '{') else cs

/-- `.replace(/}[\s\S]*$/i, '}')`: truncate after the first `}` (the
leftmost match wins); unchanged when there is none. -/
def keepThroughFirstBrace : List Char → List Char
  | [] => []
  | c :: rest => if c = '}' then ['}'] else c :: keepThroughFirstBrace rest

/-- `.replace(/^json\n/gi, '')`. -/
def stripJsonTagNl (cs : List Char) : List Char :=
  if startsWithCI cs "json" && (cs.drop 4).head? = some '\n' then cs.drop 5
  else cs

/-- The text-branch sanitizer chain. -/
def sanitizePromptText (s : String) : String :=
  ⟨jsTrimChars (stripJsonTagNl (removeTripleTicks (keepThroughFirstBrace
    (dropBeforeBraceIfAny s.toList))))⟩

/-- `sanitizedText.trim().startsWith('\x7b')` as a kernel-reducible
character-list test. -/
def strStartsWithBrace (s : String) : Bool :=
  listStartsWith s.toList ['\x7b']

/-- The `POST` handler: input validation (400 when neither image nor
prompt), one model call, sanitization, JSON parse with raw-text fallback
(HTTP 200 with `rawResponse`), structural validation (also falling back
to the raw text), the time-budget gate, and the per-outfit image loop.
The second component counts text-model invocations. -/
def fashionPost (env : FEnv) (hasImage hasPrompt : Bool) : FResp × ℕ :=
  if !hasImage && !hasPrompt then
    (.err "Either an image or a text prompt is required" 400, 0)
  else if hasImage then
    let text := env.modelText
    let sanitizedText := sanitizeText text
    if !(strStartsWithBrace (jsTrim sanitizedText)) then
      (.err "Failed to process the request" 500, 1)
    else
      match env.parseJson sanitizedText with
      | none => (.raw text, 1)
      | some j =>
        if !(validStructure j) then (.raw text, 1)
        else if env.timeShort then (.json j, 1)
        else (.json { j with outfits := genLoop env.genImage j 0 j.outfits }, 1)
  else
    match env.parseJson (sanitizePromptText env.modelText) with
    | none => (.raw env.modelText, 1)
    | some j =>
      if !(validStructure j) then (.raw env.modelText, 1)
      else if env.timeShort then (.json j, 1)
      else (.json { j with outfits := genLoop env.genImage j 0 j.outfits }, 1)

/-! ## Helper lemmas -/

theorem normalize_result_nonempty (currency : Option String)
    (ctx : CurrencyContext) (c : String)
    (h : normalizeOriginalCurrency currency ctx = some c) : c ≠ "" := by
  cases currency with
  | none => simp [normalizeOriginalCurrency] at h
  | some cur =>
    unfold normalizeOriginalCurrency at h
    by_cases hc : cur = ""
    · simp [hc] at h
    · simp only [hc, if_false] at h
      intro hceq
      subst hceq
      split at h
      · rename_i hcontains
        rw [Option.some_inj] at h
        rw [h] at hcontains
        exact absurd hcontains (by decide)
      · split at h
        · rename_i p hfind
          have hmem := List.mem_of_find?_eq_some hfind
          have hall : ∀ q ∈ symbolMap, ∀ x, q.2.head? = some x → x ≠ "" := by
            decide
          exact hall p hmem "" h rfl
        · split at h
          · rename_i hlen
            rw [Option.some_inj] at h
            rw [h] at hlen
            exact absurd hlen (by decide)
          · exact Option.noConfusion h

theorem normalize_shape (currency : Option String) (ctx : CurrencyContext) :
    normalizeOriginalCurrency currency ctx = none ∨
      ∃ c, normalizeOriginalCurrency currency ctx = some c ∧ c ≠ "" := by
  cases hres : normalizeOriginalCurrency currency ctx with
  | none => exact Or.inl rfl
  | some c => exact Or.inr ⟨c, rfl, normalize_result_nonempty currency ctx c hres⟩

/-! ## Claims C7 and C8 -/

/-- C7 (amended): `normalizeOriginalCurrency` is a total function — it
never throws and always returns either a currency code (a non-empty
string) or the explicit null "no conversion" signal; and for every symbol
in the fixed symbol table other than `Rp`, it returns a non-empty
canonical code.  (`Rp` itself falls through to null because the lookup
happens on the uppercased input while the table entry is
case-sensitive.) -/
theorem c7_normalizer_total_and_symbols (currency : Option String)
    (ctx : CurrencyContext) (p : String × List String)
    (hp : p ∈ symbolMap) (hrp : p.1 ≠ "Rp") :
    (normalizeOriginalCurrency currency ctx = none ∨
      ∃ c, normalizeOriginalCurrency currency ctx = some c ∧ c ≠ "") ∧
    ∃ c, normalizeOriginalCurrency (some p.1) ctx = some c ∧ c ≠ "" := by
  refine ⟨normalize_shape currency ctx, ?_⟩
  fin_cases hp
  · exact ⟨"USD", rfl, by decide⟩
  · exact ⟨"GBP", rfl, by decide⟩
  · exact ⟨"EUR", rfl, by decide⟩
  · exact ⟨"JPY", rfl, by decide⟩
  · exact ⟨"INR", rfl, by decide⟩
  · exact ⟨"THB", rfl, by decide⟩
  · exact ⟨"MYR", rfl, by decide⟩
  · exact ⟨"USD", rfl, by decide⟩
  · exact ⟨"USD", rfl, by decide⟩
  · exact ⟨"USD", rfl, by decide⟩
  · exact ⟨"USD", rfl, by decide⟩
  · exact ⟨"USD", rfl, by decide⟩
  · exact ⟨"KRW", rfl, by decide⟩
  · exact ⟨"VND", rfl, by decide⟩
  · exact absurd rfl hrp
  · exact ⟨"PHP", rfl, by decide⟩
  · exact ⟨"MMK", rfl, by decide⟩
  · exact ⟨"USD", rfl, by decide⟩

/-- C7 counterexample: the symbol-table entry `Rp` is a symbol input for
which normalization returns null rather than a non-empty canonical code,
so the claim's "for every symbol input in the fixed symbol table it
returns a non-empty canonical code" fails. -/
theorem c7_counterexample :
    ("Rp", ["IDR"]) ∈ symbolMap ∧
      normalizeOriginalCurrency (some "Rp") {} = none := by
  constructor
  · decide
  · decide

/-- Witness for C7 at the concrete inputs `£` (arbitrary query) and `$`
(symbol-table entry). -/
theorem c7_witness :
    (("$", ["USD", "CAD", "AUD", "SGD", "HKD"]) ∈ symbolMap ∧
      ("$" : String) ≠ "Rp") ∧
    ((normalizeOriginalCurrency (some "£") {} = none ∨
      ∃ c, normalizeOriginalCurrency (some "£") {} = some c ∧ c ≠ "") ∧
    ∃ c, normalizeOriginalCurrency (some "$") {} = some c ∧ c ≠ "") :=
  ⟨⟨by decide, by decide⟩,
    c7_normalizer_total_and_symbols (some "£") {}
      ("$", ["USD", "CAD", "AUD", "SGD", "HKD"]) (by decide) (by decide)⟩

/-- C8: the disambiguation context never influences the result of
currency normalization, and an ambiguous symbol (one whose symbol-table
entry has more than one candidate code) always resolves to the first
candidate of its entry. -/
theorem c8_context_ignored_first_candidate (currency : Option String)
    (ctx1 ctx2 : CurrencyContext) (p : String × List String)
    (hp : p ∈ symbolMap) (hlen : 1 < p.2.length) :
    normalizeOriginalCurrency currency ctx1 =
      normalizeOriginalCurrency currency ctx2 ∧
    normalizeOriginalCurrency (some p.1) ctx1 = p.2.head? := by
  refine ⟨rfl, ?_⟩
  fin_cases hp <;> first
    | rfl
    | exact absurd hlen (by decide)

/-- Witness for C8 at `$` with two distinct contexts. -/
theorem c8_witness :
    (("$", ["USD", "CAD", "AUD", "SGD", "HKD"]) ∈ symbolMap ∧
      1 < (["USD", "CAD", "AUD", "SGD", "HKD"] : List String).length) ∧
    (normalizeOriginalCurrency (some "US Dollar $")
        { location := some "Kuala Lumpur", language := some "ms" } =
      normalizeOriginalCurrency (some "US Dollar $") {} ∧
    normalizeOriginalCurrency (some "$")
        { location := some "Kuala Lumpur", language := some "ms" } =
      (["USD", "CAD", "AUD", "SGD", "HKD"] : List String).head?) :=
  ⟨⟨by decide, by decide⟩,
    c8_context_ignored_first_candidate (some "US Dollar $")
      { location := some "Kuala Lumpur", language := some "ms" } {}
      ("$", ["USD", "CAD", "AUD", "SGD", "HKD"]) (by decide) (by decide)⟩

/-! ## Sanitizer stage lemmas (claim C5) -/

theorem dropWhile_ws_of_brace (t : List Char) :
    ('{' :: t).dropWhile jsWsChar = '{' :: t := by
  simp [List.dropWhile_cons, jsWsChar]

theorem fenceTagMatch_brace (t : List Char) : fenceTagMatch ('{' :: t) = none := by
  unfold fenceTagMatch
  have h2 : "``".toList = ['`', '`'] := rfl
  have h1 : listStartsWith ('{' :: t) ("``".toList) = false := by
    rw [h2]
    simp [listStartsWith]
  have h3 : startsWithCI ('{' :: t) "json" = false := by
    simp [startsWithCI, listStartsWith]
  rw [h1, h3]
  simp

theorem stripFenceTagPrefix_brace (t : List Char) :
    stripFenceTagPrefix ('{' :: t) = '{' :: t := by
  unfold stripFenceTagPrefix
  rw [dropWhile_ws_of_brace, fenceTagMatch_brace]

theorem removeTripleTicks_self (cs : List Char)
    (h : hasSublist cs tripleTick = false) : removeTripleTicks cs = cs := by
  induction cs with
  | nil => rfl
  | cons c rest ih =>
    rw [hasSublist] at h
    rw [Bool.or_eq_false_iff] at h
    obtain ⟨hsw, hrest⟩ := h
    cases rest with
    | nil => rfl
    | cons c2 rest2 =>
      cases rest2 with
      | nil => rfl
      | cons c3 rest3 =>
        rw [removeTripleTicks, if_neg (by rw [hsw]; exact Bool.false_ne_true)]
        have htail := ih hrest
        rw [htail]

theorem dropBeforeBrace_brace (t : List Char) :
    dropBeforeBrace ('{' :: t) = '{' :: t := by
  simp [dropBeforeBrace, List.dropWhile_cons]

theorem keepThroughLastBrace_of_last (l : List Char) :
    keepThroughLastBrace (l ++ ['}']) = l ++ ['}'] := by
  unfold keepThroughLastBrace
  rw [if_pos (by simp)]
  rw [List.reverse_append]
  simp [List.dropWhile_cons]

theorem jsTrimChars_of_ends (cs : List Char)
    (hh : ∀ c, cs.head? = some c → jsWsChar c = false)
    (hl : ∀ c, cs.getLast? = some c → jsWsChar c = false) :
    jsTrimChars cs = cs := by
  unfold jsTrimChars
  have h1 : cs.dropWhile jsWsChar = cs := by
    cases cs with
    | nil => rfl
    | cons a t =>
      rw [List.dropWhile_cons, if_neg]
      rw [hh a rfl]
      exact Bool.false_ne_true
  rw [h1]
  have h2 : cs.reverse.dropWhile jsWsChar = cs.reverse := by
    cases hr : cs.reverse with
    | nil => rfl
    | cons a t =>
      rw [List.dropWhile_cons, if_neg]
      have : cs.getLast? = some a := by
        rw [← List.head?_reverse, hr]
        rfl
      rw [hl a this]
      exact Bool.false_ne_true
  rw [h2, List.reverse_reverse]

theorem stripJsonNewline_brace (t : List Char) :
    stripJsonNewline ('{' :: t) = '{' :: t := by
  unfold stripJsonNewline
  rw [if_neg]
  rw [show startsWithCI ('{' :: t) "json" = false by
    simp [startsWithCI, listStartsWith]]
  exact Bool.false_ne_true

theorem collapseBraceWs_brace (t : List Char) :
    collapseBraceWs ('{' :: t) = '{' :: t.dropWhile jsWsChar := by
  unfold collapseBraceWs
  rw [dropWhile_ws_of_brace]
  show '{' :: t.dropWhile jsWsChar = '{' :: t.dropWhile jsWsChar
  rfl

theorem dropWhile_ws_of_head (t : List Char)
    (ht : ∀ c, t.head? = some c → jsWsChar c = false) :
    t.dropWhile jsWsChar = t := by
  cases t with
  | nil => rfl
  | cons a t2 =>
    rw [List.dropWhile_cons, if_neg]
    rw [ht a rfl]
    exact Bool.false_ne_true

/-! ## Claim C5 -/

/-- C5 (amended): the sanitizer removes every code-fence marker anywhere
in the text (not only outside the JSON span) and leading language tags,
and keeps the span from the first `{` to the last `}`, trimming
whitespace; on already-clean JSON output — text that starts with `{`,
ends with `}`, and contains no three-backtick fence sequence — it
returns the input with at most the JSON-insignificant whitespace run
directly after the opening brace removed, hence a string that parses to
the same object; when no whitespace follows the opening brace it is the
identity, so it is idempotent there. -/
theorem c5_sanitizer_identity_on_clean_json (s : String) (t : List Char)
    (hshape : s.toList = '{' :: t)
    (hlast : s.toList.getLast? = some '}')
    (hticks : hasSublist s.toList tripleTick = false) :
    sanitizeText s = ⟨'{' :: t.dropWhile jsWsChar⟩ ∧
    ((∀ c, t.head? = some c → jsWsChar c = false) → sanitizeText s = s) := by
  have hkey : sanitizeChars s.toList = '{' :: t.dropWhile jsWsChar := by
    rw [hshape] at hlast hticks ⊢
    unfold sanitizeChars
    rw [stripFenceTagPrefix_brace, removeTripleTicks_self _ hticks,
      dropBeforeBrace_brace]
    obtain ⟨l, hl⟩ := List.getLast?_eq_some_iff.mp hlast
    rw [hl, keepThroughLastBrace_of_last, ← hl]
    have htrim : jsTrimChars ('{' :: t) = '{' :: t := by
      apply jsTrimChars_of_ends
      · intro c hc
        rw [List.head?_cons, Option.some_inj] at hc
        rw [← hc]
        rfl
      · intro c hc
        rw [hlast, Option.some_inj] at hc
        rw [← hc]
        rfl
    rw [htrim, htrim, htrim, stripJsonNewline_brace, collapseBraceWs_brace]
  have hmain : sanitizeText s = ⟨'{' :: t.dropWhile jsWsChar⟩ := by
    unfold sanitizeText
    rw [hkey]
  refine ⟨hmain, fun hsecond => ?_⟩
  rw [hmain, dropWhile_ws_of_head t hsecond, ← hshape]
  cases s
  rfl

/-- C5 counterexample: on the already-clean JSON text
`{"a":"` ``` `"}` (a string value containing a code fence), the sanitizer
does not keep the span from the first `{` to the last matching `}` —
it deletes the fence characters inside the span, producing a string that
denotes a different object. -/
theorem c5_counterexample :
    sanitizeText "\x7b\"a\":\"```\"\x7d" = "\x7b\"a\":\"\"\x7d" ∧
      ("\x7b\"a\":\"```\"\x7d" : String) ≠ "\x7b\"a\":\"\"\x7d" := by
  constructor
  · rfl
  · decide

/-- Witness for C5 at the concrete pretty-printed clean JSON
`{` newline `"ok":1}`: the sanitizer only drops the insignificant
newline after the opening brace, and the identity corollary applies to
the compact form. -/
theorem c5_witness :
    ("\x7b\n\"ok\":1\x7d" : String).toList =
      '{' :: ['\n', '\"', 'o', 'k', '\"', ':', '1', '}'] ∧
    (sanitizeText "\x7b\n\"ok\":1\x7d" =
        ⟨'{' :: (['\n', '\"', 'o', 'k', '\"', ':', '1', '}'].dropWhile
          jsWsChar)⟩ ∧
      ((∀ c, (['\n', '\"', 'o', 'k', '\"', ':', '1', '}'] :
          List Char).head? = some c → jsWsChar c = false) →
        sanitizeText "\x7b\n\"ok\":1\x7d" = "\x7b\n\"ok\":1\x7d")) :=
  ⟨by decide,
    c5_sanitizer_identity_on_clean_json "\x7b\n\"ok\":1\x7d"
      ['\n', '\"', 'o', 'k', '\"', ':', '1', '}'] (by decide) (by decide)
      (by decide)⟩

/-! ## Image-loop lemmas (claim C9) -/

theorem genLoop_get? (gen : ℕ → Except String (Option String))
    (j : FashionJson) :
    ∀ (os : List FOutfit) (i k : ℕ),
      (genLoop gen j i os)[k]? = (os[k]?).map (genStep gen j (i + k)) := by
  intro os
  induction os with
  | nil =>
    intro i k
    simp [genLoop]
  | cons o rest ih =>
    intro i k
    cases k with
    | zero => simp [genLoop]
    | succ k2 =>
      rw [genLoop]
      rw [List.getElem?_cons_succ, List.getElem?_cons_succ, ih (i + 1) k2]
      have : i + 1 + k2 = i + (k2 + 1) := by omega
      rw [this]

theorem genStep_error (gen : ℕ → Except String (Option String))
    (j : FashionJson) (i : ℕ) (o : FOutfit) (msg : String)
    (h : gen i = .error msg) :
    (genStep gen j i o).generatedImage = some placeholderImage := by
  unfold genStep
  rw [h]

theorem genStep_ok_some (gen : ℕ → Except String (Option String))
    (j : FashionJson) (i : ℕ) (o : FOutfit) (d : String)
    (h : gen i = .ok (some d)) :
    (genStep gen j i o).generatedImage =
      some ("data:image/png;base64," ++ d) := by
  unfold genStep
  rw [h]

/-! ## Claim C9 -/

/-- C9: during outfit image synthesis, a generation failure at one
outfit index yields the placeholder image for exactly that outfit; every
other outfit keeps its own generated image, and the request still
returns the assembled JSON result with HTTP 200. -/
theorem c9_outfit_failure_isolated (env : FEnv) (hasPrompt : Bool)
    (j : FashionJson) (k : ℕ) (msg : String) (d : ℕ → String)
    (hstart : strStartsWithBrace (jsTrim (sanitizeText env.modelText)) = true)
    (hparse : env.parseJson (sanitizeText env.modelText) = some j)
    (hvalid : validStructure j = true)
    (htime : env.timeShort = false)
    (hk : env.genImage k = .error msg)
    (hok : ∀ i, i ≠ k → env.genImage i = .ok (some (d i))) :
    fashionPost env true hasPrompt =
      (.json { j with outfits := genLoop env.genImage j 0 j.outfits }, 1) ∧
    statusOf (fashionPost env true hasPrompt).1 = 200 ∧
    ((genLoop env.genImage j 0 j.outfits)[k]?).map FOutfit.generatedImage =
      (j.outfits[k]?).map (fun _ => some placeholderImage) ∧
    ∀ i, i ≠ k →
      ((genLoop env.genImage j 0 j.outfits)[i]?).map FOutfit.generatedImage =
        (j.outfits[i]?).map
          (fun _ => some ("data:image/png;base64," ++ d i)) := by
  have hpost : fashionPost env true hasPrompt =
      (.json { j with outfits := genLoop env.genImage j 0 j.outfits }, 1) := by
    unfold fashionPost
    simp [hstart, hparse, hvalid, htime]
  refine ⟨hpost, by rw [hpost]; rfl, ?_, ?_⟩
  · rw [genLoop_get? env.genImage j j.outfits 0 k]
    cases hcase : j.outfits[k]? with
    | none => rfl
    | some o =>
      show some ((genStep env.genImage j (0 + k) o).generatedImage) =
        some (some placeholderImage)
      rw [genStep_error env.genImage j (0 + k) o msg
        (by rw [Nat.zero_add]; exact hk)]
  · intro i hi
    rw [genLoop_get? env.genImage j j.outfits 0 i]
    cases hcase : j.outfits[i]? with
    | none => rfl
    | some o =>
      show some ((genStep env.genImage j (0 + i) o).generatedImage) =
        some (some ("data:image/png;base64," ++ d i))
      rw [genStep_ok_some env.genImage j (0 + i) o (d i)
        (by rw [Nat.zero_add]; exact hok i hi)]

/-- Concrete fashion response for the C9 witness: three outfits. -/
def jC9 : FashionJson :=
  { itemType := some "shirt"
    itemDescription := some ⟨"red", "plain", "cotton", "casual"⟩
    outfits :=
      [⟨"Look 1", ["jeans"], ["daily"], some "p1", none⟩,
       ⟨"Look 2", ["skirt"], ["daily"], some "p2", none⟩,
       ⟨"Look 3", ["shorts"], ["daily"], some "p3", none⟩]
    stylingTips := ["layer it"] }

/-- Concrete request environment for the C9 witness: image generation
throws for outfit index 1 only. -/
def envC9 : FEnv :=
  { modelText := "\x7b\"x\":1\x7d"
    parseJson := fun s => if s = "\x7b\"x\":1\x7d" then some jC9 else none
    genImage := fun i => if i = 1 then .error "boom" else .ok (some "IMG")
    timeShort := false }

/-- Witness for C9: outfit #2 (index 1) fails, gets the placeholder, the
others keep their images, and the request returns 200. -/
theorem c9_witness :
    envC9.genImage 1 = .error "boom" ∧
    (fashionPost envC9 true false =
      (.json { jC9 with
        outfits := genLoop envC9.genImage jC9 0 jC9.outfits }, 1) ∧
    statusOf (fashionPost envC9 true false).1 = 200 ∧
    ((genLoop envC9.genImage jC9 0 jC9.outfits)[1]?).map
        FOutfit.generatedImage =
      (jC9.outfits[1]?).map (fun _ => some placeholderImage) ∧
    ∀ i, i ≠ 1 →
      ((genLoop envC9.genImage jC9 0 jC9.outfits)[i]?).map
          FOutfit.generatedImage =
        (jC9.outfits[i]?).map
          (fun _ => some ("data:image/png;base64," ++
            (fun _ : ℕ => "IMG") i))) :=
  ⟨rfl, c9_outfit_failure_isolated envC9 false jC9 1 "boom"
    (fun _ => "IMG") (by decide) (by decide) (by decide) rfl rfl
    (by
      intro i hi
      show (if i = 1 then Except.error "boom"
        else Except.ok (some "IMG")) = Except.ok (some "IMG")
      rw [if_neg hi])⟩

/-! ## Claim C10 -/

/-- C10: `saveReceipt` always overwrites the record's `user_id` with the
authenticated user's id before the single insert — the inserted row's
`user_id` equals the authenticated user's id whatever the argument
carried — and with no authenticated user it throws and inserts
nothing. -/
theorem c10_save_overwrites_user_id (receiptData : ReceiptData)
    (db : List ReceiptData) (uid : String) :
    saveReceipt (some uid) receiptData db =
      .ok (db ++ [{ receiptData with user_id := uid }]) ∧
    ({ receiptData with user_id := uid } : ReceiptData).user_id = uid ∧
    saveReceipt none receiptData db = .error .notAuthenticated :=
  ⟨rfl, rfl, rfl⟩

/-! ## Except-monad and conversion-pass lemmas -/

@[simp] theorem exceptPure {α : Type} (a : α) :
    (pure a : Except PRErr α) = .ok a := rfl

@[simp] theorem exceptBind_ok {α β : Type} (a : α) (f : α → Except PRErr β) :
    (Except.ok a >>= f : Except PRErr β) = f a := rfl

@[simp] theorem exceptBind_error {α β : Type} (e : PRErr)
    (f : α → Except PRErr β) :
    ((Except.error e : Except PRErr α) >>= f) = Except.error e := rfl

theorem mapM_ok_of_forall {α β : Type} (f : α → Except PRErr β) (g : α → β)
    (hf : ∀ a, f a = .ok (g a)) :
    ∀ l : List α, l.mapM f = .ok (l.map g) := by
  intro l
  induction l with
  | nil => rfl
  | cons a t ih =>
    rw [List.mapM_cons, hf a, exceptBind_ok, ih, exceptBind_ok, exceptPure,
      List.map_cons]

theorem mapM_error_of_head {α β : Type} (f : α → Except PRErr β) (e : PRErr)
    (a : α) (l : List α) (hf : f a = .error e) :
    (a :: l).mapM f = .error e := by
  rw [List.mapM_cons]
  simp [hf]

/-- Pure value form of one successful conversion at rate `r` (amount
times rate, rounded; NaN stays NaN). -/
def convVal (r : ℚ) (a : Option ℚ) : Option ℚ :=
  a.map (fun x => round2 (x * r))

theorem convert_none (rates : String → Option ℚ) (c : String)
    (h : rates c = none) (a : Option ℚ) :
    convert rates a c = .error (.conversionFailed c) := by
  unfold convert
  rw [h]

theorem convert_some (rates : String → Option ℚ) (c : String) (r : ℚ)
    (h : rates c = some r) (a : Option ℚ) :
    convert rates a c = .ok (convVal r a) := by
  unfold convert
  rw [h]
  rfl

theorem convertPass_flag_false (rates : String → Option ℚ)
    (rd : ParsedGemini) (h : rd.currencyConverted = false) :
    convertPass rates rd = .ok rd := by
  unfold convertPass
  cases hoc : rd.originalCurrency with
  | none => rfl
  | some c => simp [h]

theorem convertPass_rate_none (rates : String → Option ℚ)
    (rd : ParsedGemini) (c : String) (its : List PItem)
    (hc : rd.originalCurrency = some c) (hflag : rd.currencyConverted = true)
    (hne : c ≠ "") (hitems : rd.items = some its) (hr : rates c = none) :
    convertPass rates rd = .error (.conversionFailed c) := by
  have hcb : (c != "") = true := by simp [hne]
  unfold convertPass
  simp only [hc, hflag, hcb, Bool.true_and, if_true, hitems]
  cases its with
  | cons a t =>
    rw [mapM_error_of_head _ (.conversionFailed c) a t
      (by rw [convert_none rates c hr]; rfl)]
    rfl
  | nil =>
    rw [List.mapM_nil]
    cases htax : rd.tax with
    | none => simp [convert_none rates c hr]
    | some t => simp [convert_none rates c hr]

theorem convertPass_rate_some (rates : String → Option ℚ)
    (rd : ParsedGemini) (c : String) (r : ℚ) (its : List PItem)
    (hc : rd.originalCurrency = some c) (hflag : rd.currencyConverted = true)
    (hne : c ≠ "") (hitems : rd.items = some its) (hr : rates c = some r) :
    convertPass rates rd = .ok { rd with
      items := some (its.map (fun item =>
        { item with price := some (jnumOf (convVal r (toNumber item.price))) }))
      subtotal :=
        if jsTruthy rd.subtotal then
          some (jnumOf (convVal r (toNumber rd.subtotal)))
        else rd.subtotal
      tax := rd.tax.map (fun t =>
        if jsTruthy t.amount then
          { t with amount := some (jnumOf (convVal r (toNumber t.amount))) }
        else t)
      total := some (jnumOf (convVal r (toNumber rd.total)))
      discounts := rd.discounts.map (fun ds => ds.map (fun d =>
        { d with
          amount := some (jnumOf (convVal r (toNumber d.amount))) })) } := by
  have hcb : (c != "") = true := by simp [hne]
  have hitemsM : (List.mapM (fun item =>
      convert rates (toNumber item.price) c >>= fun p =>
        pure { item with price := some (jnumOf p) }) its :
          Except PRErr (List PItem)) =
      .ok (its.map (fun item =>
        { item with
          price := some (jnumOf (convVal r (toNumber item.price))) })) :=
    mapM_ok_of_forall _ _ (fun item => by
      rw [convert_some rates c r hr, exceptBind_ok, exceptPure]) its
  unfold convertPass
  simp only [hc, hflag, hcb, Bool.true_and, if_true, hitems]
  rw [hitemsM, exceptBind_ok]
  by_cases hsub : jsTruthy rd.subtotal <;>
    cases htax : rd.tax <;>
      cases hdisc : rd.discounts <;>
        simp only [hsub, if_true, if_false, Bool.false_eq_true,
          convert_some rates c r hr, exceptBind_ok, exceptPure,
          Option.map_some', Option.map_none']
  · rename_i ds
    rw [mapM_ok_of_forall _ (fun d => { d with
      amount := some (jnumOf (convVal r (toNumber d.amount))) }) (fun d => by
        simp [convert_some rates c r hr]) ds]
    rfl
  · rename_i t
    by_cases hta : jsTruthy t.amount <;>
      simp only [hta, if_true, if_false, Bool.false_eq_true,
        convert_some rates c r hr, exceptBind_ok, exceptPure]
  · rename_i t ds
    by_cases hta : jsTruthy t.amount <;>
      simp only [hta, if_true, if_false, Bool.false_eq_true,
        convert_some rates c r hr, exceptBind_ok, exceptPure] <;>
      rw [mapM_ok_of_forall _ (fun d => { d with
        amount := some (jnumOf (convVal r (toNumber d.amount))) }) (fun d => by
          simp [convert_some rates c r hr]) ds] <;>
      rfl
  · rename_i ds
    rw [mapM_ok_of_forall _ (fun d => { d with
      amount := some (jnumOf (convVal r (toNumber d.amount))) }) (fun d => by
        simp [convert_some rates c r hr]) ds]
    rfl
  · rename_i t
    by_cases hta : jsTruthy t.amount <;>
      simp only [hta, if_true, if_false, Bool.false_eq_true,
        convert_some rates c r hr, exceptBind_ok, exceptPure]
  · rename_i t ds
    by_cases hta : jsTruthy t.amount <;>
      simp only [hta, if_true, if_false, Bool.false_eq_true,
        convert_some rates c r hr, exceptBind_ok, exceptPure] <;>
      rw [mapM_ok_of_forall _ (fun d => { d with
        amount := some (jnumOf (convVal r (toNumber d.amount))) }) (fun d => by
          simp [convert_some rates c r hr]) ds] <;>
      rfl

/-! ## `processReceipt` staging lemmas -/

theorem failCleanup_fst (env : PREnv) (imageUrl finalImageUrl : String)
    (e : PRErr) (tr : PRTrace) :
    (failCleanup env imageUrl finalImageUrl e tr).1 = .error e := by
  unfold failCleanup
  split <;> rfl

theorem deleteImage_geminiCalls (env : PREnv) (u : String) (tr : PRTrace) :
    (deleteImage env u tr).geminiCalls = tr.geminiCalls := by
  unfold deleteImage
  split
  · rfl
  split
  · rfl
  split
  · rfl
  split <;> rfl

theorem failCleanup_geminiCalls (env : PREnv)
    (imageUrl finalImageUrl : String) (e : PRErr) (tr : PRTrace) :
    (failCleanup env imageUrl finalImageUrl e tr).2.geminiCalls =
      tr.geminiCalls := by
  unfold failCleanup
  split
  · exact deleteImage_geminiCalls env finalImageUrl tr
  · rfl

theorem deleteImage_attempts_of_storage (env : PREnv) (u : String)
    (tr : PRTrace) (h : isStorageObjectUrl u = true) :
    (deleteImage env u tr).deleteAttempts = tr.deleteAttempts ++ [u] := by
  unfold isStorageObjectUrl at h
  rw [Bool.and_eq_true, Bool.and_eq_true] at h
  obtain ⟨⟨h1, h2⟩, h3⟩ := h
  unfold deleteImage
  rw [if_neg (by simpa using h1), if_neg (by simp [h2])]
  obtain ⟨idx, hidx⟩ := Option.isSome_iff_exists.mp h3
  rw [hidx]
  by_cases hd : env.deleteOk <;> simp [hd]

theorem deleteImage_attempts_mono (env : PREnv) (u a : String)
    (tr : PRTrace) (h : a ∈ tr.deleteAttempts) :
    a ∈ (deleteImage env u tr).deleteAttempts := by
  unfold deleteImage
  split
  · exact h
  split
  · exact h
  split
  · exact h
  split <;> simp [List.mem_append] <;> exact Or.inl h

/-- Everything after a successful parse whose payload is not an explicit
non-receipt: `processReceipt` is the conversion pass over the normalized
payload followed by record construction, with any pass error propagated
through the cleanup path. -/
theorem processReceipt_stage (env : PREnv) (imageData imageUrl : String)
    (uid : String) (pm : ParsedModel) (payload : String)
    (hauth : env.authUser = some uid)
    (hpp : parsePayload env.modelText = some payload)
    (hjp : env.jsonParse payload = some pm)
    (hrec : pm.isReceipt ≠ some false) :
    processReceipt env imageData imageUrl =
      (match convertPass env.rates (normalizeStep pm.data) with
       | .error e => failCleanup env imageUrl
           (finalUrlOf env imageData imageUrl) e
           { uploadTraceOf env imageData imageUrl with
             geminiCalls := (uploadTraceOf env imageData imageUrl).geminiCalls + 1 }
       | .ok rd2 => (.ok (buildRecord env uid
           (finalUrlOf env imageData imageUrl) rd2),
           { uploadTraceOf env imageData imageUrl with
             geminiCalls :=
               (uploadTraceOf env imageData imageUrl).geminiCalls + 1 })) := by
  unfold processReceipt
  rw [hauth]
  simp only [hpp, hjp]
  rw [if_neg hrec]

/-! ## Numeric bridging lemmas -/

theorem toNumber_jnumOf (v : Option ℚ) : toNumber (some (jnumOf v)) = v := by
  cases v <;> rfl

theorem numOr0_jnumOf (v : Option ℚ) :
    numOr0 (some (jnumOf v)) = v.getD 0 := by
  cases v <;> rfl

theorem round2_zero : round2 0 = 0 := by
  unfold round2
  norm_num

theorem toNumber_of_falsy (v : Option JVal) (h : jsTruthy v = false) :
    toNumber v = none ∨ toNumber v = some 0 := by
  cases v with
  | none => exact Or.inl rfl
  | some j =>
    cases j with
    | jnull => exact Or.inr rfl
    | jnan => exact Or.inl rfl
    | jnum q =>
      have hq : q = 0 := by simpa [jsTruthy] using h
      rw [hq]
      exact Or.inr rfl
    | jstr s =>
      have hs : s = "" := by simpa [jsTruthy] using h
      subst hs
      exact Or.inr rfl

theorem numOr0_falsy_conv (r : ℚ) (v : Option JVal)
    (h : jsTruthy v = false) :
    numOr0 v = (convVal r (toNumber v)).getD 0 := by
  rcases toNumber_of_falsy v h with h0 | h0 <;>
    simp [numOr0, h0, convVal, round2_zero]

/-! ## Pipeline projection lemmas -/

theorem runPipeline_fst_error (env : PREnv) (imageData imageUrl : String)
    (db : List ReceiptData) (e : PRErr)
    (h : (processReceipt env imageData imageUrl).1 = .error e) :
    (runReceiptPipeline env imageData imageUrl db).1 = .error e := by
  unfold runReceiptPipeline
  cases hp : processReceipt env imageData imageUrl with
  | mk fst snd =>
    rw [hp] at h
    simp only at h
    rw [h]

theorem runPipeline_fst_ok (env : PREnv) (imageData imageUrl uid : String)
    (db : List ReceiptData) (rec : ReceiptData)
    (hauth : env.authUser = some uid)
    (h : (processReceipt env imageData imageUrl).1 = .ok rec) :
    (runReceiptPipeline env imageData imageUrl db).1 =
      .ok (db ++ [{ rec with user_id := uid }]) := by
  unfold runReceiptPipeline
  cases hp : processReceipt env imageData imageUrl with
  | mk fst snd =>
    rw [hp] at h
    simp only at h
    rw [h]
    simp only
    unfold saveReceipt
    rw [hauth]

/-! ## Claim C1 -/

/-- C1: when the conversion pass runs (converted flag true and a
normalized origin code present), every monetary field of the produced
record — each item price, the subtotal, the tax amount when a tax object
is present, each discount amount, and the total — is the conversion of
the extracted value at the single origin code's rate; and when the rate
lookup fails, `processReceipt` fails as a whole with the conversion
error and the pipeline persists no record.  (Rate lookup and rounding
are spec-modelled: the converter module is outside the source tree.) -/
theorem c1_conversion_all_or_nothing (env : PREnv)
    (imageData imageUrl : String) (db : List ReceiptData)
    (pm : ParsedModel) (payload uid c : String) (its : List PItem)
    (hauth : env.authUser = some uid)
    (hpp : parsePayload env.modelText = some payload)
    (hjp : env.jsonParse payload = some pm)
    (hrec : pm.isReceipt ≠ some false)
    (hflag : pm.data.currencyConverted = true)
    (hnorm : normalizeOriginalCurrency pm.data.originalCurrency
      { location := pm.data.storeLocation,
        language := pm.data.receiptLanguage } = some c)
    (hitems : pm.data.items = some its) :
    (env.rates c = none →
      (processReceipt env imageData imageUrl).1 =
        .error (.conversionFailed c) ∧
      (runReceiptPipeline env imageData imageUrl db).1 =
        .error (.conversionFailed c)) ∧
    (∀ r, env.rates c = some r →
      ∃ rec, (processReceipt env imageData imageUrl).1 = .ok rec ∧
        rec.metadata_original_currency = some c ∧
        rec.items = its.map (fun item =>
          { name := item.name
            price := convVal r (toNumber item.price)
            quantity :=
              if jsTruthy item.quantity then some (toNumber item.quantity)
              else none }) ∧
        rec.subtotal = (convVal r (toNumber pm.data.subtotal)).getD 0 ∧
        rec.tax = pm.data.tax.map (fun t =>
          (numOr0 t.rate, (convVal r (toNumber t.amount)).getD 0)) ∧
        rec.discounts = pm.data.discounts.map (fun ds => ds.map (fun d =>
          (d.description, convVal r (toNumber d.amount)))) ∧
        rec.total = (convVal r (toNumber pm.data.total)).getD 0) := by
  have hne : c ≠ "" := normalize_result_nonempty _ _ c hnorm
  have hnstep : normalizeStep pm.data =
      { pm.data with originalCurrency := some c } := by
    unfold normalizeStep
    rw [hflag, if_pos rfl, hnorm]
    simp [hflag]
  have hstage := processReceipt_stage env imageData imageUrl uid pm payload
    hauth hpp hjp hrec
  constructor
  · intro hr
    have hcp : convertPass env.rates
        { pm.data with originalCurrency := some c } =
        .error (.conversionFailed c) :=
      convertPass_rate_none env.rates _ c its rfl hflag hne hitems hr
    have hproc : (processReceipt env imageData imageUrl).1 =
        .error (.conversionFailed c) := by
      rw [hstage, hnstep, hcp]
      exact failCleanup_fst env imageUrl _ _ _
    exact ⟨hproc, runPipeline_fst_error env imageData imageUrl db _ hproc⟩
  · intro r hr
    have hcp := convertPass_rate_some env.rates
      { pm.data with originalCurrency := some c } c r its rfl hflag hne
      hitems hr
    refine ⟨_, by rw [hstage, hnstep, hcp], ?_, ?_, ?_, ?_, ?_, ?_⟩
    · show jsStrOrNull (some c) = some c
      simp [jsStrOrNull, hne]
    · show (Option.getD (some _) []).map coerceItem = _
      simp only [Option.getD_some, List.map_map]
      apply List.map_congr_left
      intro item _
      simp [Function.comp, coerceItem, toNumber_jnumOf]
    · show numOr0 (if jsTruthy pm.data.subtotal then _ else pm.data.subtotal) = _
      by_cases hsub : jsTruthy pm.data.subtotal
      · rw [if_pos hsub, numOr0_jnumOf]
      · rw [if_neg hsub]
        exact numOr0_falsy_conv r pm.data.subtotal (by simpa using hsub)
    · show (pm.data.tax.map _).map _ = _
      cases htax : pm.data.tax with
      | none => rfl
      | some t =>
        simp only [Option.map_some']
        by_cases hta : jsTruthy t.amount
        · rw [if_pos hta]
          simp [numOr0_jnumOf]
        · rw [if_neg hta]
          rw [numOr0_falsy_conv r t.amount (by simpa using hta)]
    · show (pm.data.discounts.map _).map _ = _
      cases hdisc : pm.data.discounts with
      | none => rfl
      | some ds =>
        simp only [Option.map_some', List.map_map]
        apply congrArg
        apply List.map_congr_left
        intro d _
        simp [Function.comp, toNumber_jnumOf]
    · show numOr0 (some (jnumOf (convVal r (toNumber pm.data.total)))) = _
      rw [numOr0_jnumOf]

/-- Concrete parsed model for the C1 witness: a USD receipt with the
converted flag set. -/
def pmC1 : ParsedModel :=
  { isReceipt := some true
    reason := none
    data :=
      { storeName := some "International Cafe"
        date := some "2024-03-15"
        items := some [⟨"Coffee", some (.jnum 10), none⟩]
        subtotal := some (.jnum 10)
        tax := none
        discounts := none
        total := some (.jnum 10)
        category := some "Food & Dining"
        currencyConverted := true
        originalCurrency := some "USD"
        storeLocation := none
        receiptLanguage := none } }

/-- Concrete environment for the C1 witness: the rate source yields no
rate for any code. -/
def envC1 : PREnv :=
  { authUser := some "user-1"
    uploadedUrl :=
      "https://sb.test/storage/v1/object/public/receipt-images/temp/u/a.jpg"
    modelText := "\x7br\x7d"
    jsonParse := fun s => if s = "\x7br\x7d" then some pmC1 else none
    rates := fun _ => none
    taxCategory := none
    timestamp := "2026-10-12T00:00:00.000Z"
    newId := "id-1"
    deleteOk := true }

/-- Witness for C1: with the rate source down, processing fails with the
conversion error and the pipeline persists nothing. -/
theorem c1_witness :
    envC1.rates "USD" = none ∧
    ((processReceipt envC1 "data:image/jpeg;base64,x" "").1 =
        .error (.conversionFailed "USD") ∧
      (runReceiptPipeline envC1 "data:image/jpeg;base64,x" "" []).1 =
        .error (.conversionFailed "USD")) :=
  ⟨rfl,
    (c1_conversion_all_or_nothing envC1 "data:image/jpeg;base64,x" "" []
      pmC1 "\x7br\x7d" "user-1" "USD" [⟨"Coffee", some (.jnum 10), none⟩]
      rfl rfl rfl (by decide) rfl rfl rfl).1 rfl⟩

/-! ## Claim C2 -/

/-- C2 (amended): `validateAndFormatData` does reject a parsed object
with a missing (falsy) store name, item list, total or date — but
`processReceipt` never invokes it; the pipeline instead substitutes
defaults for missing fields (store name `Unknown Store`, the processing
date, `[]`, `0`), so a receipt missing the store name is still processed
and persisted, and records reaching `saveReceipt` carry all four fields
only by virtue of those defaults. -/
theorem c2_incomplete_receipts_are_defaulted_not_rejected
    (parseDate : Option JVal → Option String) (data : VData) (env : PREnv)
    (imageData imageUrl : String) (db : List ReceiptData)
    (pm : ParsedModel) (payload uid : String)
    (hmiss : jsTruthy data.store_name = false)
    (hauth : env.authUser = some uid)
    (hpp : parsePayload env.modelText = some payload)
    (hjp : env.jsonParse payload = some pm)
    (hrec : pm.isReceipt ≠ some false)
    (hsn : pm.data.storeName = none ∨ pm.data.storeName = some "")
    (hflag : pm.data.currencyConverted = false) :
    validateAndFormatData parseDate data = .error .missingRequiredFields ∧
    ∃ rec, (processReceipt env imageData imageUrl).1 = .ok rec ∧
      rec.store_name = "Unknown Store" ∧
      (runReceiptPipeline env imageData imageUrl db).1 =
        .ok (db ++ [{ rec with user_id := uid }]) := by
  constructor
  · unfold validateAndFormatData
    rw [if_pos]
    rw [hmiss]
    rfl
  · have hnstep : normalizeStep pm.data = pm.data := by
      unfold normalizeStep
      rw [hflag]
      rfl
    have hcp := convertPass_flag_false env.rates pm.data hflag
    have hstage := processReceipt_stage env imageData imageUrl uid pm payload
      hauth hpp hjp hrec
    have hproc : (processReceipt env imageData imageUrl).1 =
        .ok (buildRecord env uid (finalUrlOf env imageData imageUrl)
          pm.data) := by
      rw [hstage, hnstep, hcp]
    refine ⟨_, hproc, ?_, runPipeline_fst_ok env imageData imageUrl uid db _
      hauth hproc⟩
    show jsOrStr pm.data.storeName "Unknown Store" = "Unknown Store"
    rcases hsn with hsn | hsn <;> rw [hsn] <;> rfl

/-- Concrete parsed model for C2: the store name is absent. -/
def pmC2 : ParsedModel :=
  { isReceipt := some true
    reason := none
    data :=
      { storeName := none
        date := some "2024-01-01"
        items := some [⟨"Coffee", some (.jnum 10), none⟩]
        subtotal := some (.jnum 10)
        tax := none
        discounts := none
        total := some (.jnum 10)
        category := some "Food & Dining"
        currencyConverted := false
        originalCurrency := none
        storeLocation := none
        receiptLanguage := none } }

/-- Concrete environment for C2. -/
def envC2 : PREnv :=
  { authUser := some "user-1"
    uploadedUrl :=
      "https://sb.test/storage/v1/object/public/receipt-images/temp/u/b.jpg"
    modelText := "\x7br\x7d"
    jsonParse := fun s => if s = "\x7br\x7d" then some pmC2 else none
    rates := fun _ => none
    taxCategory := none
    timestamp := "2026-10-12T00:00:00.000Z"
    newId := "id-2"
    deleteOk := true }

/-- C2 counterexample: a parsed receipt with no store name sails through
`processReceipt` (validation with `IncompleteReceipt` never fires — the
validator is not wired in) and a record with the placeholder store name
is persisted. -/
theorem c2_counterexample :
    pmC2.data.storeName = none ∧
    (runReceiptPipeline envC2 "imgdata" "" []).1 =
      .ok [buildRecord envC2 "user-1" (finalUrlOf envC2 "imgdata" "")
        pmC2.data] ∧
    (buildRecord envC2 "user-1" (finalUrlOf envC2 "imgdata" "")
      pmC2.data).store_name = "Unknown Store" :=
  ⟨rfl, rfl, rfl⟩

/-- Concrete falsy-store-name validator input for the C2 witness. -/
def vdataC2 : VData :=
  { store_name := none
    items := some [⟨"Coffee", some (.jnum 10), none⟩]
    subtotal := some (.jnum 10)
    tax := none
    discounts := none
    total := some (.jnum 10)
    date := some (.jstr "2024-01-01") }

/-- Witness for C2 at concrete inputs. -/
theorem c2_witness :
    jsTruthy vdataC2.store_name = false ∧
    (validateAndFormatData (fun _ => some "2024-01-01") vdataC2 =
        .error .missingRequiredFields ∧
      ∃ rec, (processReceipt envC2 "imgdata" "").1 = .ok rec ∧
        rec.store_name = "Unknown Store" ∧
        (runReceiptPipeline envC2 "imgdata" "" []).1 =
          .ok ([] ++ [{ rec with user_id := "user-1" }])) :=
  ⟨rfl,
    c2_incomplete_receipts_are_defaulted_not_rejected
      (fun _ => some "2024-01-01") vdataC2 envC2 "imgdata" "" [] pmC2
      "\x7br\x7d" "user-1" rfl rfl rfl rfl (by decide) (Or.inl rfl) rfl⟩

/-! ## Claim C3 -/

/-- C3 (amended): numeric coercion never rejects a receipt, and the
top-level monetary fields subtotal, tax rate, tax amount and total do
collapse unparseable values to 0 (`Number(...) || 0`); but item prices,
item quantities and discount amounts are coerced with plain
`Number(...)`, so an unparseable value is persisted as NaN rather than 0,
and a negative extracted total or subtotal passes through unchanged, so
the persisted totals are not always non-negative. -/
theorem c3_permissive_coercion (env : PREnv) (imageData imageUrl : String)
    (pm : ParsedModel) (payload uid : String)
    (hauth : env.authUser = some uid)
    (hpp : parsePayload env.modelText = some payload)
    (hjp : env.jsonParse payload = some pm)
    (hrec : pm.isReceipt ≠ some false)
    (hflag : pm.data.currencyConverted = false) :
    ∃ rec, (processReceipt env imageData imageUrl).1 = .ok rec ∧
      rec.subtotal = (toNumber pm.data.subtotal).getD 0 ∧
      rec.total = (toNumber pm.data.total).getD 0 ∧
      rec.tax = pm.data.tax.map (fun t =>
        ((toNumber t.rate).getD 0, (toNumber t.amount).getD 0)) ∧
      rec.items = (pm.data.items.getD []).map coerceItem ∧
      rec.discounts = pm.data.discounts.map (fun ds => ds.map (fun d =>
        (d.description, toNumber d.amount))) := by
  have hnstep : normalizeStep pm.data = pm.data := by
    unfold normalizeStep
    rw [hflag]
    rfl
  have hcp := convertPass_flag_false env.rates pm.data hflag
  have hstage := processReceipt_stage env imageData imageUrl uid pm payload
    hauth hpp hjp hrec
  have hproc : (processReceipt env imageData imageUrl).1 =
      .ok (buildRecord env uid (finalUrlOf env imageData imageUrl)
        pm.data) := by
    rw [hstage, hnstep, hcp]
  exact ⟨_, hproc, rfl, rfl, rfl, rfl, rfl⟩

/-- Concrete parsed model for C3: an unparseable item price and a
negative extracted total. -/
def pmC3 : ParsedModel :=
  { isReceipt := some true
    reason := none
    data :=
      { storeName := some "Shop"
        date := some "2024-01-01"
        items := some [⟨"widget", some (.jstr "abc"), none⟩]
        subtotal := some (.jstr "xyz")
        tax := none
        discounts := none
        total := some (.jnum (-5))
        category := some "Miscellaneous"
        currencyConverted := false
        originalCurrency := none
        storeLocation := none
        receiptLanguage := none } }

/-- Concrete environment for C3. -/
def envC3 : PREnv :=
  { authUser := some "user-1"
    uploadedUrl :=
      "https://sb.test/storage/v1/object/public/receipt-images/temp/u/c.jpg"
    modelText := "\x7br\x7d"
    jsonParse := fun s => if s = "\x7br\x7d" then some pmC3 else none
    rates := fun _ => none
    taxCategory := none
    timestamp := "2026-10-12T00:00:00.000Z"
    newId := "id-3"
    deleteOk := true }

/-- C3 counterexample: the unparseable item price `"abc"` is persisted as
NaN (not 0), and the extracted total `-5` is persisted negative, while
the receipt is still accepted — refuting both the "every non-numeric
value becomes 0" and the "total and subtotal are non-negative after
validation" parts of the claim. -/
theorem c3_counterexample :
    (processReceipt envC3 "imgdata" "https://pre.test/x.jpg").1 =
      .ok (buildRecord envC3 "user-1" "https://pre.test/x.jpg" pmC3.data) ∧
    (buildRecord envC3 "user-1" "https://pre.test/x.jpg"
      pmC3.data).items.map RItem.price = [none] ∧
    (buildRecord envC3 "user-1" "https://pre.test/x.jpg"
      pmC3.data).total = -5 ∧
    (buildRecord envC3 "user-1" "https://pre.test/x.jpg"
      pmC3.data).total < 0 := by
  refine ⟨rfl, rfl, rfl, ?_⟩
  show (-5 : ℚ) < 0
  norm_num

/-- Witness for C3 at the same concrete input via the amended theorem. -/
theorem c3_witness :
    envC3.authUser = some "user-1" ∧
    ∃ rec, (processReceipt envC3 "imgdata" "https://pre.test/x.jpg").1 =
        .ok rec ∧
      rec.subtotal = (toNumber pmC3.data.subtotal).getD 0 ∧
      rec.total = (toNumber pmC3.data.total).getD 0 ∧
      rec.tax = pmC3.data.tax.map (fun t =>
        ((toNumber t.rate).getD 0, (toNumber t.amount).getD 0)) ∧
      rec.items = (pmC3.data.items.getD []).map coerceItem ∧
      rec.discounts = pmC3.data.discounts.map (fun ds => ds.map (fun d =>
        (d.description, toNumber d.amount))) :=
  ⟨rfl,
    c3_permissive_coercion envC3 "imgdata" "https://pre.test/x.jpg" pmC3
      "\x7br\x7d" "user-1" rfl rfl rfl (by decide) rfl⟩

/-! ## Claim C4 -/

theorem failCleanup_snd_noUrl (env : PREnv) (finalImageUrl : String)
    (e : PRErr) (tr : PRTrace) :
    (failCleanup env "" finalImageUrl e tr).2 =
      deleteImage env finalImageUrl tr := by
  unfold failCleanup
  rw [if_pos rfl]

theorem processReceipt_notAReceipt (env : PREnv) (imageData : String)
    (uid rsn : String) (pm : ParsedModel) (payload : String)
    (hauth : env.authUser = some uid)
    (hpp : parsePayload env.modelText = some payload)
    (hjp : env.jsonParse payload = some pm)
    (hfalse : pm.isReceipt = some false)
    (hreason : pm.reason = some rsn) (hrsn : rsn ≠ "") :
    processReceipt env imageData "" =
      failCleanup env "" (finalUrlOf env imageData "") (.notAReceipt rsn)
        (deleteImage env (finalUrlOf env imageData "")
          { uploadTraceOf env imageData "" with
            geminiCalls :=
              (uploadTraceOf env imageData "").geminiCalls + 1 }) := by
  unfold processReceipt
  rw [hauth]
  simp only [hpp, hjp]
  rw [if_pos hfalse]
  rw [hreason]
  have hjs : jsOrStr (some rsn) "Unable to identify receipt content" =
      rsn := by
    unfold jsOrStr
    simp [hrsn]
  rw [hjs]
  simp

/-- C4: an explicit non-receipt model verdict makes `processReceipt`
fail with the not-a-receipt error carrying the model's stated reason;
when the caller supplied no pre-existing image URL, the temporary upload
is the target of a compensation `deleteImage` call; and a storage
deletion failure never replaces that error — the same error is thrown
whether or not the storage service accepts the deletion. -/
theorem c4_not_a_receipt_cleanup (env : PREnv) (imageData : String)
    (db : List ReceiptData) (uid rsn : String) (pm : ParsedModel)
    (payload : String)
    (hauth : env.authUser = some uid)
    (hpp : parsePayload env.modelText = some payload)
    (hjp : env.jsonParse payload = some pm)
    (hfalse : pm.isReceipt = some false)
    (hreason : pm.reason = some rsn) (hrsn : rsn ≠ "")
    (hdata : strStartsWith imageData "https://" = false)
    (hurl : isStorageObjectUrl env.uploadedUrl = true) :
    (processReceipt env imageData "").1 = .error (.notAReceipt rsn) ∧
    env.uploadedUrl ∈ (processReceipt env imageData "").2.deleteAttempts ∧
    (runReceiptPipeline env imageData "" db).1 =
      .error (.notAReceipt rsn) ∧
    ∀ b, (processReceipt { env with deleteOk := b } imageData "").1 =
      .error (.notAReceipt rsn) := by
  have hfurl : finalUrlOf env imageData "" = env.uploadedUrl := by
    unfold finalUrlOf
    rw [if_pos rfl, if_neg (by rw [hdata]; exact Bool.false_ne_true)]
  have hmain := processReceipt_notAReceipt env imageData uid rsn pm payload
    hauth hpp hjp hfalse hreason hrsn
  have hfst : (processReceipt env imageData "").1 =
      .error (.notAReceipt rsn) := by
    rw [hmain]
    exact failCleanup_fst env "" _ _ _
  refine ⟨hfst, ?_, runPipeline_fst_error env imageData "" db _ hfst, ?_⟩
  · rw [hmain, failCleanup_snd_noUrl, hfurl]
    apply deleteImage_attempts_mono
    rw [deleteImage_attempts_of_storage env env.uploadedUrl _ hurl]
    simp
  · intro b
    have hmain2 := processReceipt_notAReceipt { env with deleteOk := b }
      imageData uid rsn pm payload hauth hpp hjp hfalse hreason hrsn
    rw [hmain2]
    exact failCleanup_fst _ "" _ _ _

/-- Concrete parsed model for C4: the model says this is not a
receipt. -/
def pmC4 : ParsedModel :=
  { isReceipt := some false
    reason := some "blurry photo"
    data :=
      { storeName := none
        date := none
        items := none
        subtotal := none
        tax := none
        discounts := none
        total := none
        category := none
        currencyConverted := false
        originalCurrency := none
        storeLocation := none
        receiptLanguage := none } }

/-- Concrete environment for C4. -/
def envC4 : PREnv :=
  { authUser := some "user-1"
    uploadedUrl :=
      "https://sb.test/storage/v1/object/public/receipt-images/temp/u/d.jpg"
    modelText := "\x7br\x7d"
    jsonParse := fun s => if s = "\x7br\x7d" then some pmC4 else none
    rates := fun _ => none
    taxCategory := none
    timestamp := "2026-10-12T00:00:00.000Z"
    newId := "id-4"
    deleteOk := false }

/-- Witness for C4: concrete non-receipt response with a temporary
upload; the deletion attempt targets that upload even though the storage
service rejects it (`deleteOk := false`), and the original error
survives. -/
theorem c4_witness :
    pmC4.isReceipt = some false ∧
    ((processReceipt envC4 "imgdata" "").1 =
        .error (.notAReceipt "blurry photo") ∧
      envC4.uploadedUrl ∈
        (processReceipt envC4 "imgdata" "").2.deleteAttempts ∧
      (runReceiptPipeline envC4 "imgdata" "" []).1 =
        .error (.notAReceipt "blurry photo") ∧
      ∀ b, (processReceipt { envC4 with deleteOk := b } "imgdata" "").1 =
        .error (.notAReceipt "blurry photo")) :=
  ⟨rfl,
    c4_not_a_receipt_cleanup envC4 "imgdata" [] "user-1" "blurry photo"
      pmC4 "\x7br\x7d" rfl rfl rfl rfl rfl (by decide) (by decide)
      (by decide)⟩

/-! ## Claim C6 -/

theorem uploadTraceOf_geminiCalls (env : PREnv)
    (imageData imageUrl : String) :
    (uploadTraceOf env imageData imageUrl).geminiCalls = 0 := by
  unfold uploadTraceOf
  split
  · split <;> rfl
  · rfl

/-- C6 (amended): neither pipeline ever retries the model — each request
makes exactly one model call — but extraction failures are not uniformly
"an error carrying the raw text": the fashion route answers a sanitizer
output with no opening brace with a bare HTTP 500 error (no raw text),
and a span that fails to parse with HTTP 200 carrying the raw text under
`rawResponse` (not an error); the receipt processor throws descriptive
errors (`Invalid response format` when no brace pair matches, `Failed to
parse response` when parsing fails) that do not carry the raw text. -/
theorem c6_extraction_failure_surfacing (fenv : FEnv) (hp : Bool)
    (env : PREnv) (imageData imageUrl uid : String)
    (hauth : env.authUser = some uid) :
    (strStartsWithBrace (jsTrim (sanitizeText fenv.modelText)) = false →
      fashionPost fenv true hp =
        (.err "Failed to process the request" 500, 1)) ∧
    (strStartsWithBrace (jsTrim (sanitizeText fenv.modelText)) = true →
      fenv.parseJson (sanitizeText fenv.modelText) = none →
      fashionPost fenv true hp = (.raw fenv.modelText, 1) ∧
      statusOf (fashionPost fenv true hp).1 = 200) ∧
    (jsonMatchOf env.modelText = .nomatch →
      (processReceipt env imageData imageUrl).1 =
        .error .invalidResponseFormat ∧
      (processReceipt env imageData imageUrl).2.geminiCalls = 1) ∧
    (jsonMatchOf env.modelText = .bare →
      env.jsonParse env.modelText = none →
      (processReceipt env imageData imageUrl).1 = .error .parseFailed ∧
      (processReceipt env imageData imageUrl).2.geminiCalls = 1) := by
  refine ⟨?_, ?_, ?_, ?_⟩
  · intro h
    unfold fashionPost
    simp [h]
  · intro h hparse
    have : fashionPost fenv true hp = (.raw fenv.modelText, 1) := by
      unfold fashionPost
      simp [h, hparse]
    exact ⟨this, by rw [this]; rfl⟩
  · intro hm
    have hppn : parsePayload env.modelText = none := by
      unfold parsePayload
      rw [hm]
    have hpr : processReceipt env imageData imageUrl =
        failCleanup env imageUrl (finalUrlOf env imageData imageUrl)
          .invalidResponseFormat
          { uploadTraceOf env imageData imageUrl with
            geminiCalls :=
              (uploadTraceOf env imageData imageUrl).geminiCalls + 1 } := by
      unfold processReceipt
      rw [hauth]
      simp only [hppn]
    rw [hpr]
    refine ⟨failCleanup_fst env imageUrl _ _ _, ?_⟩
    rw [failCleanup_geminiCalls]
    simp [uploadTraceOf_geminiCalls]
  · intro hm hparse
    have hpps : parsePayload env.modelText = some env.modelText := by
      unfold parsePayload
      rw [hm]
    have hpr : processReceipt env imageData imageUrl =
        failCleanup env imageUrl (finalUrlOf env imageData imageUrl)
          .parseFailed
          { uploadTraceOf env imageData imageUrl with
            geminiCalls :=
              (uploadTraceOf env imageData imageUrl).geminiCalls + 1 } := by
      unfold processReceipt
      rw [hauth]
      simp only [hpps, hparse]
    rw [hpr]
    refine ⟨failCleanup_fst env imageUrl _ _ _, ?_⟩
    rw [failCleanup_geminiCalls]
    simp [uploadTraceOf_geminiCalls]

/-- Concrete fashion environment for C6: the model emits a brace span
that does not parse as JSON. -/
def envC6 : FEnv :=
  { modelText := "\x7bbad\x7d"
    parseJson := fun _ => none
    genImage := fun _ => .ok none
    timeShort := false }

/-- Concrete receipt environment for C6: the model emits no brace
pair. -/
def envC6r : PREnv :=
  { authUser := some "user-1"
    uploadedUrl :=
      "https://sb.test/storage/v1/object/public/receipt-images/temp/u/e.jpg"
    modelText := "no braces at all"
    jsonParse := fun _ => none
    rates := fun _ => none
    taxCategory := none
    timestamp := "2026-10-12T00:00:00.000Z"
    newId := "id-6"
    deleteOk := true }

/-- C6 counterexample: on a brace span that fails to parse, the fashion
route returns HTTP 200 with the raw text under `rawResponse` — the
extraction failure is not surfaced to the caller as an error. -/
theorem c6_counterexample :
    fashionPost envC6 true false = (.raw "\x7bbad\x7d", 1) ∧
    statusOf (fashionPost envC6 true false).1 = 200 :=
  ⟨rfl, rfl⟩

/-- Witness for C6 at concrete environments. -/
theorem c6_witness :
    envC6r.authUser = some "user-1" ∧
    ((strStartsWithBrace (jsTrim (sanitizeText envC6.modelText)) = false →
      fashionPost envC6 true false =
        (.err "Failed to process the request" 500, 1)) ∧
    (strStartsWithBrace (jsTrim (sanitizeText envC6.modelText)) = true →
      envC6.parseJson (sanitizeText envC6.modelText) = none →
      fashionPost envC6 true false = (.raw envC6.modelText, 1) ∧
      statusOf (fashionPost envC6 true false).1 = 200) ∧
    (jsonMatchOf envC6r.modelText = .nomatch →
      (processReceipt envC6r "imgdata" "").1 =
        .error .invalidResponseFormat ∧
      (processReceipt envC6r "imgdata" "").2.geminiCalls = 1) ∧
    (jsonMatchOf envC6r.modelText = .bare →
      envC6r.jsonParse envC6r.modelText = none →
      (processReceipt envC6r "imgdata" "").1 = .error .parseFailed ∧
      (processReceipt envC6r "imgdata" "").2.geminiCalls = 1)) :=
  ⟨rfl, c6_extraction_failure_surfacing envC6 false envC6r "imgdata" ""
    "user-1" rfl⟩
